import Mathlib

/-!
A shallow embedding of SnapFiles.py (a small HTTP file service for the Snap!
programming environment) and proofs about its file-handle cache and command
dispatch.  Python strings are modelled as lists of Unicode code points,
byte strings as lists of naturals below 256, the on-disk file system and the
process-wide handle cache as association lists.  Paths follow posixpath
semantics; the platform line separator os.linesep is modelled as the POSIX
"\n".  Python exceptions that escape a handler are modelled with Except.
-/

namespace SnapFiles



/-- Python strings are sequences of Unicode code points; modelled as lists of naturals. -/
abbrev PyStr := List Nat

/-- Embed a Lean string literal as a Python string (its code points). -/
def pstr (s : String) : PyStr := s.data.map Char.toNat

/-- The POSIX path separator "/" as a code point. -/
def SEP : Nat := 47

/-- Lookup in an association list (used for Python dicts and for directories on disk). -/
def lookupA {α : Type} : List (PyStr × α) → PyStr → Option α
  | [], _ => none
  | (k, v) :: rest, key => if key = k then some v else lookupA rest key

/-- Insert or replace a key in an association list. -/
def insertA {α : Type} : List (PyStr × α) → PyStr → α → List (PyStr × α)
  | [], key, v => [(key, v)]
  | (k, w) :: rest, key, v => if key = k then (k, v) :: rest else (k, w) :: insertA rest key v

/-- Remove every binding of a key from an association list. -/
def removeA {α : Type} : List (PyStr × α) → PyStr → List (PyStr × α)
  | [], _ => []
  | (k, w) :: rest, key => if k = key then removeA rest key else (k, w) :: removeA rest key

/-! ## Path resolution (posixpath semantics, as used by the source on POSIX hosts) -/

/-- posixpath.basename: the suffix of the path after its last slash. -/

def basename (p : PyStr) : PyStr :=
  p.foldl (fun acc c => if c = SEP then [] else acc ++ [c]) []

/-- posixpath.join for two components: an absolute second component wins;
otherwise the components are glued with exactly one separator. -/
def ospJoin (a b : PyStr) : PyStr :=
  if b.head? = some SEP then b
  else if a = [] then b
  else if a.getLast? = some SEP then a ++ b
  else a ++ SEP :: b

/-- documentsPath from the source: the home directory joined with "Documents".
The home directory itself (os.path.expanduser of tilde) is environment input,
so it is a parameter throughout. -/
def documentsPath (home : PyStr) : PyStr := ospJoin home (pstr "Documents")

/-- snapFilesPath from the source: os.path.join(documentsPath(), "SnapFiles", username),
with the three-argument join folded left. -/
def snapFilesPath (home username : PyStr) : PyStr :=
  ospJoin (ospJoin (documentsPath home) (pstr "SnapFiles")) username

/-- filepath from the source: the per-user root joined with the basename of the
supplied filename.  (The makedirs side effect only touches directories, which
this model does not track.) -/
def filepath (home username filename : PyStr) : PyStr :=
  ospJoin (snapFilesPath home username) (basename filename)

/-- Split a code-point list at every occurrence of a separator (Python str.split). -/
def splitAux (sep : Nat) (cur : PyStr) : List Nat → List PyStr
  | [] => [cur.reverse]
  | c :: rest => if c = sep then cur.reverse :: splitAux sep [] rest else splitAux sep (c :: cur) rest

/-- All separator-delimited fields of a code-point list. -/
def splitOn (sep : Nat) (s : PyStr) : List PyStr := splitAux sep [] s

/-- One step of lexical path normalization: empty and "." segments vanish,
".." pops the most recent segment. -/
def normStep (acc : List PyStr) (seg : PyStr) : List PyStr :=
  if seg = [] ∨ seg = pstr "." then acc
  else if seg = pstr ".." then acc.tail
  else seg :: acc

/-- The normalized segment sequence of a path. -/
def normSegs (p : PyStr) : List PyStr := ((splitOn SEP p).foldl normStep []).reverse

/-- A path stays under a root when the normalized segments of the root are an
initial segment of the normalized segments of the path. -/
abbrev underRoot (root p : PyStr) : Prop := normSegs root <+: normSegs p

/-! ## UTF-8 (strict, as the Python encode/decode with the default error handler) -/

/-- UTF-8 encoding of one code point. -/

def utf8EncodeChar (c : Nat) : List Nat :=
  if c < 128 then [c]
  else if c < 2048 then [192 + c / 64, 128 + c % 64]
  else if c < 65536 then [224 + c / 4096, 128 + (c / 64) % 64, 128 + c % 64]
  else [240 + c / 262144, 128 + (c / 4096) % 64, 128 + (c / 64) % 64, 128 + c % 64]

/-- UTF-8 encoding of a Python string (Python bytes(s, "utf-8")). -/
def utf8Encode (s : PyStr) : List Nat := (s.map utf8EncodeChar).flatten

/-- Strict UTF-8 decoding automaton.  Arguments: number of continuation bytes
still pending, the inclusive bounds for the next continuation byte (the first
continuation byte after lead bytes E0, ED, F0, F4 has narrowed bounds, which
rejects overlong forms, surrogates and code points beyond U+10FFFF), the code
point accumulated so far, and the remaining bytes. -/
def utf8DecAux : Nat → Nat → Nat → Nat → List Nat → Option PyStr
  | 0, _, _, _, [] => some []
  | _ + 1, _, _, _, [] => none
  | 0, _, _, _, b :: rest =>
    if b < 128 then (utf8DecAux 0 0 0 0 rest).map (fun s => b :: s)
    else if 194 ≤ b ∧ b ≤ 223 then utf8DecAux 1 128 191 (b - 192) rest
    else if 224 ≤ b ∧ b ≤ 239 then
      utf8DecAux 2 (if b = 224 then 160 else 128) (if b = 237 then 159 else 191) (b - 224) rest
    else if 240 ≤ b ∧ b ≤ 244 then
      utf8DecAux 3 (if b = 240 then 144 else 128) (if b = 244 then 143 else 191) (b - 240) rest
    else none
  | 1, lo, hi, c, b :: rest =>
    if lo ≤ b ∧ b ≤ hi then (utf8DecAux 0 0 0 0 rest).map (fun s => (c * 64 + (b - 128)) :: s)
    else none
  | n + 2, lo, hi, c, b :: rest =>
    if lo ≤ b ∧ b ≤ hi then utf8DecAux (n + 1) 128 191 (c * 64 + (b - 128)) rest
    else none

/-- Strict UTF-8 decoding of a byte sequence (Python bytes.decode("utf-8")):
rejects stray continuation bytes, truncated sequences, overlong forms,
surrogates and code points beyond U+10FFFF. -/
def utf8Decode (l : List Nat) : Option PyStr := utf8DecAux 0 0 0 0 l

/-- A Unicode scalar value: any code point a Python string can hold that the
strict UTF-8 codec round-trips (everything below the surrogate block, and the
block above it up to U+10FFFF). -/
abbrev validScalar (c : Nat) : Prop := c < 55296 ∨ (57343 < c ∧ c < 1114112)

/-! ## Process state: the on-disk files, the handle cache, the open OS handles -/

/-- A cached file object: the identity of the underlying OS handle and the
current read/write cursor.  The bytes live in the file system. -/

structure Handle where
  hid : Nat
  pos : Nat
deriving Repr, DecidableEq

/-- The whole mutable state of the server process: files on disk (path to
bytes), the FileCache dictionary (path to cached handle), the set of OS-level
handles that are currently open, and a counter for fresh handle identities. -/
structure SState where
  fs : List (PyStr × List Nat)
  cache : List (PyStr × Handle)
  openh : List Nat
  nextH : Nat
deriving Repr, DecidableEq

/-- Python exceptions that can escape a handler (a server-level fault). -/
inductive PyErr where
  | unboundLocal
  | unicodeDecodeError
  | osError
deriving Repr, DecidableEq

/-- What Responder.writeResult stages into the temporary result file: either a
single Python string or a list of strings (written with writelines). -/
inductive RValue where
  | str (s : PyStr)
  | strList (ls : List PyStr)
deriving Repr, DecidableEq

/-- Outcome of one dispatched request: a staged result value plus the new
process state, or an uncaught Python exception. -/
abbrev Res := Except PyErr (RValue × SState)

/-- The bytes of a file on disk (the empty sequence when absent). -/
def fsRead (st : SState) (p : PyStr) : List Nat := (lookupA st.fs p).getD []

/-- Replace the cache entry for a path. -/
def updHandle (st : SState) (p : PyStr) (h : Handle) : SState :=
  { st with cache := insertA st.cache p h }

namespace FileCache

/-- FileCache.closeAll from the source.  The loop body "self[file].close"
merely mentions the close method without calling it, so no handle is actually
closed; the dictionary is then cleared. -/
def closeAll (st : SState) : SState := { st with cache := [] }

/-- FileCache.file: return the cached handle for the resolved path, first
creating the file on disk (empty) and opening plus caching a fresh handle at
cursor 0 when needed.  The mode parameter of the source is always None at
every call site, so its re-open branch is dead and not modelled. -/
def file (home user name : PyStr) (st : SState) : Handle × SState :=
  let p := filepath home user name
  match lookupA st.cache p with
  | some h => (h, st)
  | none =>
    let fs1 := if (lookupA st.fs p).isSome then st.fs else insertA st.fs p []
    let h : Handle := ⟨st.nextH, 0⟩
    (h, { fs := fs1, cache := insertA st.cache p h,
          openh := st.openh ++ [st.nextH], nextH := st.nextH + 1 })

/-- FileCache.close: close and evict the cached handle when present (this one
does call close, releasing the OS handle); silently do nothing otherwise. -/
def close (home user name : PyStr) (st : SState) : SState :=
  let p := filepath home user name
  match lookupA st.cache p with
  | none => st
  | some h =>
    { st with cache := removeA st.cache p, openh := st.openh.filter (fun x => x ≠ h.hid) }

/-- FileCache.truncate: when the path has a cached handle, truncate the file at
the cursor of that handle (extending with zero bytes when the cursor is past the
end, as the OS does); otherwise do nothing. -/
def truncate (home user name : PyStr) (st : SState) : SState :=
  let p := filepath home user name
  match lookupA st.cache p with
  | none => st
  | some h =>
    let content := fsRead st p
    { st with fs := insertA st.fs p (content.take h.pos ++ List.replicate (h.pos - content.length) 0) }

/-- FileCache.setPosition: open-if-needed, then seek.  whence 0 is
start-relative, 1 cursor-relative, 2 end-relative; a negative target is an OS
error (an uncaught exception at this layer). -/
def setPosition (home user name : PyStr) (toPosition : Int) (whence : Nat) (st : SState) :
    Except PyErr SState :=
  let (h, st1) := file home user name st
  let p := filepath home user name
  let size := (fsRead st1 p).length
  let target : Int :=
    if whence = 0 then toPosition
    else if whence = 1 then (h.pos : Int) + toPosition
    else (size : Int) + toPosition
  if target < 0 then .error .osError
  else .ok (updHandle st1 p { h with pos := target.toNat })

/-- FileCache.getPosition: open-if-needed, then report the cursor. -/
def getPosition (home user name : PyStr) (st : SState) : Nat × SState :=
  let (h, st1) := file home user name st
  (h.pos, st1)

/-- FileCache.remove: close first, then delete the file from disk; an absent
file is the OS error ENOENT, reported as a (False, message) pair. -/
def remove (home user name : PyStr) (st : SState) : (Bool × PyStr) × SState :=
  let st1 := close home user name st
  let p := filepath home user name
  if (lookupA st1.fs p).isSome then ((true, []), { st1 with fs := removeA st1.fs p })
  else ((false, pstr "No such file or directory"), st1)

/-- FileCache.rename: close the handles of both names, rename on disk (the
destination is overwritten, POSIX semantics; a missing source is ENOENT), and
on success seek the new name to position 0 from the start. -/
def rename (home user name newname : PyStr) (st : SState) : Except PyErr ((Bool × PyStr) × SState) :=
  let st1 := close home user name st
  let st2 := close home user newname st1
  let p := filepath home user name
  let q := filepath home user newname
  match lookupA st2.fs p with
  | none => .ok ((false, pstr "No such file or directory"), st2)
  | some content =>
    let st3 := { st2 with fs := insertA (removeA st2.fs p) q content }
    (setPosition home user newname 0 0 st3).map (fun st4 => ((true, []), st4))

/-- FileCache.copyFile: close both handles, then copy the bytes on disk.
shutil.copyfile refuses to copy a file onto itself (strerror None), and a
missing source is ENOENT. -/
def copyFile (home user fromFile toFile : PyStr) (st : SState) : (Bool × PyStr) × SState :=
  let st1 := close home user fromFile st
  let st2 := close home user toFile st1
  let p := filepath home user fromFile
  let q := filepath home user toFile
  if p = q then ((false, pstr "None"), st2)
  else
    match lookupA st2.fs p with
    | none => ((false, pstr "No such file or directory"), st2)
    | some content => ((true, []), { st2 with fs := insertA st2.fs q content })

end FileCache

/-- Read up to n bytes through the cached handle of a path (Python
file.read(n) on a binary stream): the bytes from the cursor, at most n, and
the cursor advances by the number of bytes actually read. -/
def handleRead (home user name : PyStr) (n : Nat) (st : SState) : List Nat × SState :=
  let (h, st1) := FileCache.file home user name st
  let p := filepath home user name
  let bytes := ((fsRead st1 p).drop h.pos).take n
  (bytes, updHandle st1 p { h with pos := h.pos + bytes.length })

/-- Write bytes through the cached handle of a path at the current cursor
(overwrite, zero-padding any gap past the end), advancing the cursor. -/
def handleWrite (home user name : PyStr) (data : List Nat) (st : SState) : SState :=
  let (h, st1) := FileCache.file home user name st
  let p := filepath home user name
  let content := fsRead st1 p
  let content1 := content.take h.pos ++ List.replicate (h.pos - content.length) 0
      ++ data ++ content.drop (h.pos + data.length)
  updHandle { st1 with fs := insertA st1.fs p content1 } p { h with pos := h.pos + data.length }

/-- Seek the cached handle of a path to the end of the file (f.seek(0, 2)). -/
def handleSeekEnd (home user name : PyStr) (st : SState) : SState :=
  let (h, st1) := FileCache.file home user name st
  let p := filepath home user name
  updHandle st1 p { h with pos := (fsRead st1 p).length }

/-! ## The Responder: query decoding helpers and the command handlers -/

/-- A parsed query string (urllib.parse.parse_qs).  parse_qs maps each key to
a non-empty list of values and every handler only reads entry [0], so the
model keeps just that first value. -/

abbrev Query := List (PyStr × PyStr)

/-- Python truthiness of an optional string: None and the empty string are
falsy. -/
def truthy : Option PyStr → Bool
  | none => false
  | some s => !s.isEmpty

/-- Python str.isdigit restricted to the ASCII digits the server ever feeds
it: non-empty and all digits. -/
def pyIsdigit (s : PyStr) : Bool := !s.isEmpty && s.all (fun c => 48 ≤ c && c ≤ 57)

/-- Decimal value of a digit string (Python int on an isdigit string). -/
def parseNat (s : PyStr) : Nat := s.foldl (fun acc c => acc * 10 + (c - 48)) 0

/-- Python int on an optionally signed digit string. -/
def parseIntPy (s : PyStr) : Int :=
  match s with
  | 45 :: rest => -(parseNat rest : Int)
  | 43 :: rest => (parseNat rest : Int)
  | _ => (parseNat s : Int)

/-- Decimal rendering of a natural (Python str on a non-negative int). -/
def natReprAux : Nat → Nat → List Nat
  | 0, _ => []
  | fuel + 1, n => if n < 10 then [48 + n] else natReprAux fuel (n / 10) ++ [48 + n % 10]

/-- Decimal rendering of a natural (Python str on a non-negative int). -/
def natRepr (n : Nat) : PyStr := natReprAux (n + 1) n

/-- Python str of a bool. -/
def pyBool (b : Bool) : PyStr := if b then pstr "True" else pstr "False"

namespace Responder

/-- Responder.error: results carrying failure text get the "ERROR: " marker. -/
def error (message : PyStr) : RValue := .str (pstr "ERROR: " ++ message)

/-- Responder.OK. -/
def OK : RValue := .str (pstr "OK")

/-- Responder.readLine: read single bytes until the line separator (POSIX
"\n") or end of file, decoding each byte on its own, so any non-ASCII byte
raises a decode error.  Returns the line without its terminator together with
the number of bytes consumed. -/
def readLineBytes : List Nat → Except PyErr (PyStr × Nat)
  | [] => .ok ([], 0)
  | b :: rest =>
    if 128 ≤ b then .error .unicodeDecodeError
    else if b = 10 then .ok ([], 1)
    else (readLineBytes rest).map (fun r => (b :: r.1, r.2 + 1))

/-- Responder.readall: seek to 0, read and decode the whole file, split it
into lines at "\n" dropping the text after the last separator, re-terminate
every line, then strip the terminator of the last line again.  (On POSIX the
replace of os.linesep by "\n" is the identity.) -/
def readall (home user : PyStr) (filename data : Option PyStr) (q : Query) (st : SState) : Res :=
  if truthy filename then
    let fn := filename.getD []
    let p := filepath home user fn
    let (h, st1) := FileCache.file home user fn st
    let content := fsRead st1 p
    let st2 := updHandle st1 p { h with pos := content.length }
    match utf8Decode content with
    | none => .error .unicodeDecodeError
    | some cps =>
      let lines0 := splitOn 10 cps
      let lines1 := lines0.dropLast
      let lines2 := lines1.map (fun line => line ++ [10])
      let lines3 :=
        match lines2.getLast? with
        | none => lines2
        | some last =>
          lines2.dropLast ++ [if last.getLast? = some 10 then last.dropLast else last]
      .ok (.strList lines3, st2)
  else .ok (error (pstr "no filename"), st)

/-- Responder.append: seek to the end, write the data followed by one line
separator, report OK; missing filename or data give failure results. -/
def append (home user : PyStr) (filename data : Option PyStr) (q : Query) (st : SState) : Res :=
  if truthy filename then
    if truthy data then
      let fn := filename.getD []
      let d := data.getD []
      let st1 := handleSeekEnd home user fn st
      let st2 := handleWrite home user fn (utf8Encode (d ++ [10])) st1
      .ok (OK, st2)
    else .ok (error (pstr "no data"), st)
  else .ok (error (pstr "no filename"), st)

/-- Responder.read: mode "nextline" reads one line byte-by-byte; mode
"characters" reads int(count) bytes from the cursor and decodes them; other
modes and bad counts give failure results. -/
def read (home user : PyStr) (filename data : Option PyStr) (q : Query) (st : SState) : Res :=
  if truthy filename then
    if truthy data then
      let fn := filename.getD []
      let d := data.getD []
      if d = pstr "nextline" then
        let p := filepath home user fn
        let (h, st1) := FileCache.file home user fn st
        match readLineBytes ((fsRead st1 p).drop h.pos) with
        | .error e => .error e
        | .ok (line, consumed) =>
          .ok (.str line, updHandle st1 p { h with pos := h.pos + consumed })
      else if d = pstr "characters" then
        match lookupA q (pstr "count") with
        | some count =>
          if pyIsdigit count then
            let (bytes, st1) := handleRead home user fn (parseNat count) st
            match utf8Decode bytes with
            | none => .error .unicodeDecodeError
            | some res => .ok (.str res, st1)
          else .ok (error (pstr "invalid count"), st)
        | none => .ok (error (pstr "no count specified"), st)
      else .ok (error (pstr "invalid read mode specified"), st)
    else .ok (error (pstr "no read mode specified"), st)
  else .ok (error (pstr "no filename"), st)

/-- Responder.closeAll: delegate to FileCache.closeAll, always OK. -/
def closeAll (home user : PyStr) (filename data : Option PyStr) (q : Query) (st : SState) : Res :=
  .ok (OK, FileCache.closeAll st)

/-- Responder.atEnd: open-if-needed and compare the cursor with the file size. -/
def atEnd (home user : PyStr) (filename data : Option PyStr) (q : Query) (st : SState) : Res :=
  if truthy filename then
    let fn := filename.getD []
    let p := filepath home user fn
    let (h, st1) := FileCache.file home user fn st
    .ok (.str (pyBool (h.pos = (fsRead st1 p).length)), st1)
  else .ok (error (pstr "no filename"), st)

/-- Responder.close: close never gives an error. -/
def close (home user : PyStr) (filename data : Option PyStr) (q : Query) (st : SState) : Res :=
  if truthy filename then
    .ok (OK, FileCache.close home user (filename.getD []) st)
  else .ok (error (pstr "no filename"), st)

/-- Responder.truncate: the handler first reports the current position on the
console, and that getPosition call opens and caches a handle (cursor 0) when
the path has none; only then does FileCache.truncate run, so it always finds a
cached handle.  Always OK. -/
def truncate (home user : PyStr) (filename data : Option PyStr) (q : Query) (st : SState) : Res :=
  if truthy filename then
    let fn := filename.getD []
    let (_, st1) := FileCache.getPosition home user fn st
    let st2 := FileCache.truncate home user fn st1
    .ok (OK, st2)
  else .ok (error (pstr "no filename"), st)

/-- Responder.setPosition: the local variable whence is assigned only inside
the "relativeto in parsedQuery" branch, so when the query lacks relativeto the
subsequent read of whence raises UnboundLocalError (modelled by the none case
of the optional whence). -/
def setPosition (home user : PyStr) (filename data : Option PyStr) (q : Query) (st : SState) : Res :=
  if truthy filename then
    if truthy data then
      let fn := filename.getD []
      let d := data.getD []
      let whence : Option Int :=
        match lookupA q (pstr "relativeto") with
        | none => none
        | some relativeTo =>
          some (if relativeTo = pstr "start" then 0
            else if relativeTo = pstr "current" then 1
            else if relativeTo = pstr "end" then 2
            else -1)
      match whence with
      | none => .error .unboundLocal
      | some w =>
        if w ≠ -1 then
          if pyIsdigit d ∨ ((d.head? = some 43 ∨ d.head? = some 45) ∧ pyIsdigit d.tail) then
            match FileCache.setPosition home user fn (parseIntPy d) w.toNat st with
            | .error e => .error e
            | .ok st1 => .ok (OK, st1)
          else .ok (error (pstr "invalid position"), st)
        else .ok (error (pstr "invalid relativeto"), st)
    else .ok (error (pstr "no data specified"), st)
  else .ok (error (pstr "no filename"), st)

/-- Responder.position (command getposition): the debug line calls getPosition
once (evaluated regardless of tracing, opening the file if needed) and the
result line calls it again. -/
def position (home user : PyStr) (filename data : Option PyStr) (q : Query) (st : SState) : Res :=
  if truthy filename then
    let fn := filename.getD []
    let (_, st1) := FileCache.getPosition home user fn st
    let (pos, st2) := FileCache.getPosition home user fn st1
    .ok (.str (natRepr pos), st2)
  else .ok (error (pstr "no filename"), st)

/-- Responder.exists: isfile on the resolved path; the cache is not consulted. -/
def existsCmd (home user : PyStr) (filename data : Option PyStr) (q : Query) (st : SState) : Res :=
  if truthy filename then
    .ok (.str (pyBool (lookupA st.fs (filepath home user (filename.getD []))).isSome), st)
  else .ok (error (pstr "no filename"), st)

/-- Responder.delete: close then delete; an OS failure becomes a failure
result with the OS detail. -/
def delete (home user : PyStr) (filename data : Option PyStr) (q : Query) (st : SState) : Res :=
  if truthy filename then
    let fn := filename.getD []
    let (result, st1) := FileCache.remove home user fn st
    if result.1 then .ok (OK, st1)
    else .ok (error (pstr "file cannot be removed" ++ pstr " (" ++ result.2 ++ pstr ")"), st1)
  else .ok (error (pstr "no filename"), st)

/-- Responder.rename: requires the extra parameter newname. -/
def rename (home user : PyStr) (filename data : Option PyStr) (q : Query) (st : SState) : Res :=
  if truthy filename then
    let fn := filename.getD []
    match lookupA q (pstr "newname") with
    | some newname =>
      match FileCache.rename home user fn newname st with
      | .error e => .error e
      | .ok (result, st1) =>
        if result.1 then .ok (OK, st1)
        else .ok (error (pstr "could not rename " ++ filepath home user fn ++ pstr " to "
          ++ newname ++ pstr " (" ++ result.2 ++ pstr ")"), st1)
    | none => .ok (error (pstr "no new filename"), st)
  else .ok (error (pstr "no old filename"), st)

/-- Responder.copy: requires the extra parameter tofile. -/
def copy (home user : PyStr) (filename data : Option PyStr) (q : Query) (st : SState) : Res :=
  if truthy filename then
    let fn := filename.getD []
    match lookupA q (pstr "tofile") with
    | some tofile =>
      let (result, st1) := FileCache.copyFile home user fn tofile st
      if result.1 then .ok (OK, st1)
      else .ok (error (pstr "could not copy " ++ filepath home user fn ++ pstr " to "
        ++ tofile ++ pstr " (" ++ result.2 ++ pstr ")"), st1)
    | none => .ok (error (pstr "no destination filename"), st)
  else .ok (error (pstr "no source filename"), st)

/-- Responder.write: write the UTF-8 encoding of data at the current cursor. -/
def write (home user : PyStr) (filename data : Option PyStr) (q : Query) (st : SState) : Res :=
  if truthy filename then
    if truthy data then
      .ok (OK, handleWrite home user (filename.getD []) (utf8Encode (data.getD [])) st)
    else .ok (error (pstr "no data to be written"), st)
  else .ok (error (pstr "no filename"), st)

/-- sys.version, environment input modelled as an abstract constant. -/
def PYTHON_VERSION : PyStr := pstr "3"

/-- Responder.server: static metadata about the server. -/
def server (home user : PyStr) (filename data : Option PyStr) (q : Query) (st : SState) : Res :=
  if truthy data then
    let d := data.getD []
    if d = pstr "sfs_version" then .ok (.str (pstr "V1.4"), st)
    else if d = pstr "python_version" then .ok (.str PYTHON_VERSION, st)
    else .ok (error (pstr "invalid server information request"), st)
  else .ok (error (pstr "no server information requested"), st)

/-- The dispatch table of the source, command name to handler.  The handler
for the exists command is named existsCmd here because exists is reserved in
Lean. -/
def CALL_TABLE (home : PyStr) :
    List (PyStr × (PyStr → Option PyStr → Option PyStr → Query → SState → Res)) :=
  [(pstr "readall", readall home), (pstr "append", append home), (pstr "read", read home),
   (pstr "closeall", closeAll home), (pstr "atend", atEnd home), (pstr "close", close home),
   (pstr "truncate", truncate home), (pstr "setposition", setPosition home),
   (pstr "getposition", position home), (pstr "exists", existsCmd home),
   (pstr "delete", delete home), (pstr "rename", rename home), (pstr "copy", copy home),
   (pstr "write", write home), (pstr "server", server home)]

/-- Responder.handle: dispatch through the table; an unknown command yields
the plain text "invalid command <name>" via writeResult (not via error). -/
def handle (home command user : PyStr) (filename data : Option PyStr) (q : Query) (st : SState) : Res :=
  match lookupA (CALL_TABLE home) command with
  | some hdl => hdl user filename data q st
  | none => .ok (.str (pstr "invalid command " ++ command), st)

end Responder

/-- The body text a result value stages for the HTTP response: writeResult
writes a string as is and a list of strings with writelines (concatenation). -/
def body : RValue → PyStr
  | .str s => s
  | .strList ls => ls.foldr (fun a b => a ++ b) []

/-- The staged body of a request outcome, when no exception escaped. -/
def resBody : Res → Option PyStr
  | .ok (v, _) => some (body v)
  | .error _ => none

/-- The staged line list of a request outcome, for handlers returning lists. -/
def resLines : Res → Option (List PyStr)
  | .ok (.strList ls, _) => some ls
  | _ => none

/-- The state after a request, when no exception escaped. -/
def resState : Res → Option SState
  | .ok (_, st) => some st
  | .error _ => none

/-! ## Concrete fixtures for counterexamples and witnesses -/

def homeX : PyStr := pstr "/home/john"

def userX : PyStr := pstr "alice"

def fnX : PyStr := pstr "f.txt"

def pX : PyStr := filepath homeX userX fnX

def emptyState : SState := ⟨[], [], [], 0⟩

def stAB : SState := ⟨[(pX, [97, 98])], [(pX, ⟨0, 0⟩)], [0], 1⟩

def stHI : SState := ⟨[(pX, [104, 105])], [], [], 0⟩

def stC4 : SState := ⟨[(pX, [104, 105])], [(pX, ⟨5, 0⟩)], [5], 6⟩

/-- The write, then setposition(0, start), then read(characters, count)
scenario of the spec, one request after another on the shared state. -/
def writeSeekReadChain (home user fn d count : PyStr) (st : SState) : Res :=
  match Responder.write home user (some fn) (some d) [] st with
  | .error e => .error e
  | .ok (_, st1) =>
    match Responder.setPosition home user (some fn) (some (pstr "0"))
        [(pstr "relativeto", pstr "start")] st1 with
    | .error e => .error e
    | .ok (_, st2) =>
      Responder.read home user (some fn) (some (pstr "characters")) [(pstr "count", count)] st2

/-- The append(d1), append(d2), readall scenario of the spec. -/
def appendAppendReadallChain (home user fn d1 d2 : PyStr) (st : SState) : Res :=
  match Responder.append home user (some fn) (some d1) [] st with
  | .error e => .error e
  | .ok (_, st1) =>
    match Responder.append home user (some fn) (some d2) [] st1 with
    | .error e => .error e
    | .ok (_, st2) => Responder.readall home user (some fn) none [] st2

/-- The rename(a, b) then exists(a), exists(b), getposition(b) scenario of the
spec: the rename result body followed by the three query bodies, or none when
a request faults. -/
def renameThenQuery (home user a b : PyStr) (st : SState) : Option (PyStr × PyStr × PyStr × PyStr) :=
  match Responder.rename home user (some a) none [(pstr "newname", b)] st with
  | .error _ => none
  | .ok (v, st1) =>
    match resBody (Responder.existsCmd home user (some a) none [] st1),
        resBody (Responder.existsCmd home user (some b) none [] st1),
        resBody (Responder.position home user (some b) none [] st1) with
    | some ea, some eb, some gp => some (body v, ea, eb, gp)
    | _, _, _ => none

theorem lookupA_insertA_self {α : Type} (l : List (PyStr × α)) (k : PyStr) (v : α) :
    lookupA (insertA l k v) k = some v := by
  induction l with
  | nil => simp [insertA, lookupA]
  | cons hd tl ih =>
    obtain ⟨k0, w⟩ := hd
    by_cases h : k = k0
    · simp [insertA, lookupA, h]
    · simp [insertA, lookupA, h, ih]

theorem lookupA_insertA_ne {α : Type} (l : List (PyStr × α)) (k k' : PyStr) (v : α)
    (h : k' ≠ k) : lookupA (insertA l k v) k' = lookupA l k' := by
  induction l with
  | nil => simp [insertA, lookupA, h]
  | cons hd tl ih =>
    obtain ⟨k0, w⟩ := hd
    by_cases h0 : k = k0
    · subst h0
      simp [insertA, lookupA, h]
    · by_cases h1 : k' = k0
      · simp [insertA, lookupA, h0, h1]
      · simp [insertA, lookupA, h0, h1, ih]

theorem lookupA_removeA_self {α : Type} (l : List (PyStr × α)) (k : PyStr) :
    lookupA (removeA l k) k = none := by
  induction l with
  | nil => simp [removeA, lookupA]
  | cons hd tl ih =>
    obtain ⟨k0, w⟩ := hd
    by_cases h : k0 = k
    · simp [removeA, h, ih]
    · simp [removeA, h, lookupA, Ne.symm h, ih]

theorem lookupA_removeA_ne {α : Type} (l : List (PyStr × α)) (k k' : PyStr)
    (h : k' ≠ k) : lookupA (removeA l k) k' = lookupA l k' := by
  induction l with
  | nil => simp [removeA, lookupA]
  | cons hd tl ih =>
    obtain ⟨k0, w⟩ := hd
    by_cases h0 : k0 = k
    · subst h0
      simp [removeA, lookupA, h, ih]
    · by_cases h1 : k' = k0
      · simp [removeA, h0, lookupA, h1]
      · simp [removeA, h0, lookupA, h1, ih]

theorem utf8EncodeChar_ascii {c : Nat} (h : c < 128) : utf8EncodeChar c = [c] := by
  simp [utf8EncodeChar, h]

theorem utf8Encode_ascii {s : PyStr} (h : ∀ c ∈ s, c < 128) : utf8Encode s = s := by
  induction s with
  | nil => simp [utf8Encode]
  | cons c rest ih =>
    have hc : c < 128 := h c (List.mem_cons_self c rest)
    have hrest : ∀ x ∈ rest, x < 128 := fun x hx => h x (List.mem_cons_of_mem c hx)
    simp only [utf8Encode, List.map_cons, List.flatten_cons, utf8EncodeChar_ascii hc]
    simpa [utf8Encode] using ih hrest

theorem utf8Decode_cons_ascii {b : Nat} (hb : b < 128) (rest : List Nat) :
    utf8Decode (b :: rest) = (utf8Decode rest).map (fun s => b :: s) := by
  simp [utf8Decode, utf8DecAux, hb]

theorem utf8Decode_ascii {l : List Nat} (h : ∀ b ∈ l, b < 128) : utf8Decode l = some l := by
  induction l with
  | nil => rfl
  | cons b rest ih =>
    have hb : b < 128 := h b (List.mem_cons_self b rest)
    have hrest : ∀ x ∈ rest, x < 128 := fun x hx => h x (List.mem_cons_of_mem b hx)
    rw [utf8Decode_cons_ascii hb, ih hrest]
    rfl

theorem utf8DecAux_length_le :
    ∀ (l : List Nat) (n lo hi c : Nat) (s : PyStr),
      utf8DecAux n lo hi c l = some s → s.length ≤ l.length := by
  intro l
  induction l with
  | nil =>
    intro n lo hi c s hs
    match n, hs with
    | 0, hs => simp [utf8DecAux] at hs; simp [← hs]
    | m + 1, hs => simp [utf8DecAux] at hs
  | cons b rest ih =>
    intro n lo hi c s hs
    match n with
    | 0 =>
      rw [utf8DecAux] at hs
      by_cases h1 : b < 128
      · simp only [if_pos h1, Option.map_eq_some'] at hs
        obtain ⟨t, ht, rfl⟩ := hs
        simpa using ih 0 0 0 0 t ht
      · rw [if_neg h1] at hs
        split at hs
        · exact Nat.le_succ_of_le (ih _ _ _ _ s hs)
        · split at hs
          · exact Nat.le_succ_of_le (ih _ _ _ _ s hs)
          · split at hs
            · exact Nat.le_succ_of_le (ih _ _ _ _ s hs)
            · exact absurd hs (by simp)
    | 1 =>
      rw [utf8DecAux] at hs
      split at hs
      · simp only [Option.map_eq_some'] at hs
        obtain ⟨t, ht, rfl⟩ := hs
        simpa using ih 0 0 0 0 t ht
      · exact absurd hs (by simp)
    | m + 2 =>
      rw [utf8DecAux] at hs
      split at hs
      · exact Nat.le_succ_of_le (ih _ _ _ _ s hs)
      · exact absurd hs (by simp)

theorem utf8Decode_length_le {l : List Nat} {s : PyStr} (h : utf8Decode l = some s) :
    s.length ≤ l.length :=
  utf8DecAux_length_le l 0 0 0 0 s h

theorem utf8DecAux_two_cons (lo hi cc b : Nat) (r : List Nat) :
    utf8DecAux 2 lo hi cc (b :: r)
      = if lo ≤ b ∧ b ≤ hi then utf8DecAux 1 128 191 (cc * 64 + (b - 128)) r else none := rfl

theorem utf8DecAux_three_cons (lo hi cc b : Nat) (r : List Nat) :
    utf8DecAux 3 lo hi cc (b :: r)
      = if lo ≤ b ∧ b ≤ hi then utf8DecAux 2 128 191 (cc * 64 + (b - 128)) r else none := rfl

theorem utf8DecAux_encodeChar (c : Nat) (hc : validScalar c) (rest : List Nat) :
    utf8DecAux 0 0 0 0 (utf8EncodeChar c ++ rest)
      = (utf8DecAux 0 0 0 0 rest).map (fun s => c :: s) := by
  have hv : c < 55296 ∨ (57343 < c ∧ c < 1114112) := hc
  by_cases h1 : c < 128
  · simp [utf8EncodeChar, h1, utf8DecAux]
  · by_cases h2 : c < 2048
    · have e1 : ¬(192 + c / 64 < 128) := by omega
      have e2 : 194 ≤ 192 + c / 64 ∧ 192 + c / 64 ≤ 223 := by omega
      have e3 : 128 ≤ 128 + c % 64 ∧ 128 + c % 64 ≤ 191 := by omega
      have e4 : (192 + c / 64 - 192) * 64 + (128 + c % 64 - 128) = c := by omega
      simp only [utf8EncodeChar, if_neg h1, if_pos h2, List.cons_append, List.nil_append]
      simp only [utf8DecAux, e1, e2, e3, if_false, if_true, e4]
      simp
    · by_cases h3 : c < 65536
      · have e1 : ¬(224 + c / 4096 < 128) := by omega
        have e2 : ¬(194 ≤ 224 + c / 4096 ∧ 224 + c / 4096 ≤ 223) := by omega
        have e3 : 224 ≤ 224 + c / 4096 ∧ 224 + c / 4096 ≤ 239 := by omega
        have e4 : (if 224 + c / 4096 = 224 then 160 else 128) ≤ 128 + c / 64 % 64 ∧
            128 + c / 64 % 64 ≤ (if 224 + c / 4096 = 237 then 159 else 191) := by
          constructor <;> split_ifs <;> omega
        have e5 : 128 ≤ 128 + c % 64 ∧ 128 + c % 64 ≤ 191 := by omega
        have e6 : ((224 + c / 4096 - 224) * 64 + (128 + c / 64 % 64 - 128)) * 64
            + (128 + c % 64 - 128) = c := by omega
        simp only [utf8EncodeChar, if_neg h1, if_neg h2, if_pos h3, List.cons_append,
          List.nil_append]
        simp only [utf8DecAux, utf8DecAux_two_cons, e1, e2, e3, e4, e5, if_false, if_true, e6]
        simp
      · have e1 : ¬(240 + c / 262144 < 128) := by omega
        have e2 : ¬(194 ≤ 240 + c / 262144 ∧ 240 + c / 262144 ≤ 223) := by omega
        have e3 : ¬(224 ≤ 240 + c / 262144 ∧ 240 + c / 262144 ≤ 239) := by omega
        have e4 : 240 ≤ 240 + c / 262144 ∧ 240 + c / 262144 ≤ 244 := by omega
        have e5 : (if 240 + c / 262144 = 240 then 144 else 128) ≤ 128 + c / 4096 % 64 ∧
            128 + c / 4096 % 64 ≤ (if 240 + c / 262144 = 244 then 143 else 191) := by
          constructor <;> split_ifs <;> omega
        have e6 : 128 ≤ 128 + c / 64 % 64 ∧ 128 + c / 64 % 64 ≤ 191 := by omega
        have e7 : 128 ≤ 128 + c % 64 ∧ 128 + c % 64 ≤ 191 := by omega
        have e8 : (((240 + c / 262144 - 240) * 64 + (128 + c / 4096 % 64 - 128)) * 64
            + (128 + c / 64 % 64 - 128)) * 64 + (128 + c % 64 - 128) = c := by omega
        simp only [utf8EncodeChar, if_neg h1, if_neg h2, if_neg h3, List.cons_append,
          List.nil_append]
        simp only [utf8DecAux, utf8DecAux_three_cons, utf8DecAux_two_cons, e1, e2, e3, e4,
          e5, e6, e7, if_false, if_true, e8]
        simp

theorem utf8Decode_encode_append (d : PyStr) (rest : List Nat)
    (hd : ∀ c ∈ d, validScalar c) :
    utf8Decode (utf8Encode d ++ rest) = (utf8Decode rest).map (fun s => d ++ s) := by
  induction d with
  | nil =>
    simp [utf8Encode]
  | cons c t ih =>
    have hcv : validScalar c := hd c (List.mem_cons_self c t)
    have htv : ∀ x ∈ t, validScalar x := fun x hx => hd x (List.mem_cons_of_mem c hx)
    show utf8DecAux 0 0 0 0 (utf8Encode (c :: t) ++ rest) = _
    rw [show utf8Encode (c :: t) = utf8EncodeChar c ++ utf8Encode t by simp [utf8Encode],
      List.append_assoc, utf8DecAux_encodeChar c hcv]
    rw [show utf8DecAux 0 0 0 0 (utf8Encode t ++ rest) = utf8Decode (utf8Encode t ++ rest)
        from rfl, ih htv]
    cases utf8Decode rest <;> rfl

theorem utf8Decode_encode (d : PyStr) (hd : ∀ c ∈ d, validScalar c) :
    utf8Decode (utf8Encode d) = some d := by
  have h := utf8Decode_encode_append d [] hd
  simpa [utf8Decode, utf8DecAux] using h

/-- C2: when a setposition query carries filename and data but lacks relativeto,
the handler reads the never-assigned local variable whence and raises
UnboundLocalError, a server-level fault, instead of returning a failure
result naming the missing field.  The claim is right and the code is wrong
(the validation pattern used for every other parameter shows the intent). -/
theorem setposition_missing_relativeto_unbound_local :
    Responder.setPosition homeX userX (some fnX) (some (pstr "0")) [] emptyState
      = .error .unboundLocal := rfl

/-- C4: FileCache.closeAll evicts every cache entry but never closes a handle:
the loop body mentions the close method without calling it (missing
parentheses), so the OS handle (id 5 here) stays open.  The claim (and the
comment in the code) say every handle is closed; the code is wrong. -/
theorem closeAll_evicts_without_closing : (FileCache.closeAll stC4).cache = [] ∧ 5 ∈ (FileCache.closeAll stC4).openh := by decide

/-- C1 counterexample: with a two-byte file "ab" and count 5, the read command in
mode characters returns "ab", which is not exactly 5 characters, refuting the
claim that exactly count decoded characters are returned. -/
theorem read_characters_shorter_than_count_cex :
    resBody (Responder.read homeX userX (some fnX) (some (pstr "characters"))
      [(pstr "count", pstr "5")] stAB) = some (pstr "ab")
    ∧ (pstr "ab").length ≠ parseNat (pstr "5") := by decide

/-- C3 counterexample: os.path.basename leaves ".." unchanged, so the filename
".." resolves to the parent of the per-user root, refuting the claim that the
resolved path never escapes the user root. -/
theorem filepath_dotdot_escapes_user_root_cex :
    ¬ underRoot (snapFilesPath homeX userX) (filepath homeX userX (pstr "..")) := by decide

/-- C5 counterexample: an unknown command yields the body
"invalid command frobnicate", which does not carry the "ERROR: " marker that
handler-level errors carry, refuting the claimed identical shape. -/
theorem unknown_command_lacks_error_marker_cex :
    resBody (Responder.handle homeX (pstr "frobnicate") userX (some fnX) none [] emptyState)
      = some (pstr "invalid command frobnicate")
    ∧ ¬ pstr "ERROR: " <+: pstr "invalid command frobnicate" := by decide

/-- C6 counterexample: for d = "\u00e9a" the read consumes len(d) = 2 bytes, which
covers only the two-byte encoding of "\u00e9", so the scenario returns "\u00e9",
not d, refuting the claim for arbitrary data strings. -/
theorem write_seek_read_multibyte_cex :
    resBody (writeSeekReadChain homeX userX fnX (pstr "éa") (pstr "2") emptyState) = some (pstr "é")
    ∧ pstr "é" ≠ pstr "éa" := by decide

/-- C7 counterexample: append "a", append "b", readall yields the lines
["a\n", "b"]: readall strips the terminator of the final line, refuting the
claim that each of the two lines is terminated. -/
theorem append_append_readall_last_unterminated_cex :
    resLines (appendAppendReadallChain homeX userX fnX (pstr "a") (pstr "b") emptyState)
      = some [pstr "a" ++ [10], pstr "b"]
    ∧ [pstr "a" ++ [10], pstr "b"] ≠ [pstr "a" ++ [10], pstr "b" ++ [10]] := by decide

/-- C8 counterexample: when a and b resolve to the same path, rename(a, b)
succeeds (OK) yet exists(a) still returns "True", refuting the claim as
stated for every name b. -/
theorem rename_to_same_resolved_path_cex :
    resBody (Responder.rename homeX userX (some fnX) none [(pstr "newname", fnX)] stHI)
      = some (pstr "OK")
    ∧ (match resState (Responder.rename homeX userX (some fnX) none [(pstr "newname", fnX)] stHI) with
       | some st1 => resBody (Responder.existsCmd homeX userX (some fnX) none [] st1)
       | none => none) = some (pstr "True") := by decide

/-- C9 counterexample: truncating a two-byte file with no cached handle empties
the file on disk and caches a handle, refuting the claimed silent no-op. -/
theorem truncate_uncached_not_silent_cex :
    (match resState (Responder.truncate homeX userX (some fnX) none [] stHI) with
     | some st1 => some (lookupA st1.fs pX, (lookupA st1.cache pX).isSome)
     | none => none) = some (some [], true)
    ∧ ([] : List Nat) ≠ [104, 105] := by decide

theorem truthy_some {s : PyStr} (h : s ≠ []) : truthy (some s) = true := by
  cases s with
  | nil => exact absurd rfl h
  | cons a t => rfl

theorem FileCache.file_cached {home user name : PyStr} {st : SState} {h : Handle}
    (hc : lookupA st.cache (filepath home user name) = some h) :
    FileCache.file home user name st = (h, st) := by
  simp [FileCache.file, hc]

theorem FileCache.file_fresh_new {home user name : PyStr} {st : SState}
    (hc : lookupA st.cache (filepath home user name) = none)
    (hf : lookupA st.fs (filepath home user name) = none) :
    FileCache.file home user name st =
      (⟨st.nextH, 0⟩,
        { fs := insertA st.fs (filepath home user name) [],
          cache := insertA st.cache (filepath home user name) ⟨st.nextH, 0⟩,
          openh := st.openh ++ [st.nextH], nextH := st.nextH + 1 }) := by
  simp [FileCache.file, hc, hf]

theorem FileCache.file_fresh_existing {home user name : PyStr} {st : SState} {c : List Nat}
    (hc : lookupA st.cache (filepath home user name) = none)
    (hf : lookupA st.fs (filepath home user name) = some c) :
    FileCache.file home user name st =
      (⟨st.nextH, 0⟩,
        { fs := st.fs,
          cache := insertA st.cache (filepath home user name) ⟨st.nextH, 0⟩,
          openh := st.openh ++ [st.nextH], nextH := st.nextH + 1 }) := by
  simp [FileCache.file, hc, hf]

/-- C9 (amended): on a path with no cached handle, the truncate command first
opens and caches a handle at cursor 0 (through the getPosition call in its
trace line) and then truncates the file to zero length, returning OK. -/
theorem truncate_uncached_opens_and_empties (home user fn : PyStr) (st : SState) (content : List Nat)
    (hfn : fn ≠ [])
    (hc : lookupA st.cache (filepath home user fn) = none)
    (hf : lookupA st.fs (filepath home user fn) = some content) :
    Responder.truncate home user (some fn) none [] st =
      .ok (Responder.OK,
        { fs := insertA st.fs (filepath home user fn) [],
          cache := insertA st.cache (filepath home user fn) ⟨st.nextH, 0⟩,
          openh := st.openh ++ [st.nextH], nextH := st.nextH + 1 }) := by
  simp only [Responder.truncate, truthy_some hfn, if_true, Option.getD_some,
    FileCache.getPosition, FileCache.file_fresh_existing hc hf]
  simp [FileCache.truncate, lookupA_insertA_self, fsRead, hf]

/-- C10: on a path with neither a file on disk nor a cached handle, the
getposition command creates a zero-length file at the resolved path, caches a
fresh open handle for it (its id appears in the open-handle list), and
returns the string "0". -/
theorem getposition_missing_file_creates_and_returns_zero (home user fn : PyStr) (st : SState)
    (hfn : fn ≠ [])
    (hc : lookupA st.cache (filepath home user fn) = none)
    (hf : lookupA st.fs (filepath home user fn) = none) :
    Responder.position home user (some fn) none [] st =
      .ok (.str (pstr "0"),
        { fs := insertA st.fs (filepath home user fn) [],
          cache := insertA st.cache (filepath home user fn) ⟨st.nextH, 0⟩,
          openh := st.openh ++ [st.nextH], nextH := st.nextH + 1 }) := by
  simp only [Responder.position, truthy_some hfn, if_true, Option.getD_some,
    FileCache.getPosition, FileCache.file_fresh_new hc hf]
  simp [FileCache.file, lookupA_insertA_self, natRepr, natReprAux]
  rfl

/-- C5 (amended): a command outside the dispatch table yields the plain text
result "invalid command <name>" (naming the command, without the "ERROR: "
marker), and the state is unchanged; no fault is raised. -/
theorem unknown_command_invalid_command_text (home command user : PyStr) (filename data : Option PyStr) (q : Query) (st : SState)
    (h : lookupA (Responder.CALL_TABLE home) command = none) :
    Responder.handle home command user filename data q st
      = .ok (.str (pstr "invalid command " ++ command), st) := by
  simp [Responder.handle, h]

/-- Witness for C5 at the unknown command "nosuch". -/
theorem unknown_command_invalid_command_text_w :
    Responder.handle homeX (pstr "nosuch") userX none none [] emptyState
      = .ok (.str (pstr "invalid command nosuch"), emptyState) :=
  unknown_command_invalid_command_text homeX (pstr "nosuch") userX none none [] emptyState rfl

/-- C1 (amended): the read command in mode characters returns the strict UTF-8
decoding of at most count BYTES taken from the cursor of the cached handle (so
exactly count characters only when at least count bytes remain and every
character read is single-byte). -/
theorem read_characters_at_most_count_bytes (home user fn cnt : PyStr) (st : SState) (h : Handle) (content : List Nat)
    (hfn : fn ≠ [])
    (hc : lookupA st.cache (filepath home user fn) = some h)
    (hf : lookupA st.fs (filepath home user fn) = some content)
    (hcnt : pyIsdigit cnt = true) :
    ∀ s : PyStr,
      resBody (Responder.read home user (some fn) (some (pstr "characters"))
        [(pstr "count", cnt)] st) = some s →
      utf8Decode ((content.drop h.pos).take (parseNat cnt)) = some s
      ∧ s.length ≤ parseNat cnt := by
  intro s hs
  have e1 : (pstr "characters" = pstr "nextline") = False := eq_false (by decide)
  have e2 : (pstr "characters" = pstr "characters") = True := eq_true rfl
  simp only [Responder.read, truthy_some hfn, if_true, Option.getD_some,
    show truthy (some (pstr "characters")) = true from rfl, e1, e2, if_false] at hs
  simp only [lookupA, if_pos rfl, hcnt, if_true] at hs
  simp only [handleRead, FileCache.file_cached hc, fsRead, hf, Option.getD_some] at hs
  cases hdec : utf8Decode ((content.drop h.pos).take (parseNat cnt)) with
  | none => rw [hdec] at hs; simp [resBody] at hs
  | some r =>
    rw [hdec] at hs
    simp only [resBody, body, Option.some.injEq] at hs
    subst hs
    exact ⟨rfl, le_trans (utf8Decode_length_le hdec) (List.length_take_le _ _)⟩

/-- Witness for C1 at a concrete state: reading 5 from the two-byte file "ab". -/
theorem read_characters_at_most_count_bytes_w :
    utf8Decode ((([97, 98] : List Nat).drop 0).take (parseNat (pstr "5"))) = some (pstr "ab")
    ∧ (pstr "ab").length ≤ parseNat (pstr "5") :=
  read_characters_at_most_count_bytes homeX userX fnX (pstr "5") stAB ⟨0, 0⟩ [97, 98] (by decide) rfl rfl rfl
    (pstr "ab") rfl

theorem updHandle_fs (st : SState) (p : PyStr) (h : Handle) : (updHandle st p h).fs = st.fs := rfl

theorem lookupA_updHandle_self (st : SState) (p : PyStr) (h : Handle) :
    lookupA (updHandle st p h).cache p = some h := lookupA_insertA_self st.cache p h

theorem FileCache.close_fs (home user name : PyStr) (st : SState) :
    (FileCache.close home user name st).fs = st.fs := by
  simp only [FileCache.close]
  cases lookupA st.cache (filepath home user name) <;> rfl

theorem FileCache.close_cache_self (home user name : PyStr) (st : SState) :
    lookupA (FileCache.close home user name st).cache (filepath home user name) = none := by
  simp only [FileCache.close]
  cases hl : lookupA st.cache (filepath home user name) with
  | none => simpa using hl
  | some h => simpa using lookupA_removeA_self st.cache (filepath home user name)

theorem FileCache.file_caches (home user name : PyStr) (st : SState) :
    lookupA (FileCache.file home user name st).2.cache (filepath home user name)
      = some (FileCache.file home user name st).1 := by
  simp only [FileCache.file]
  cases hl : lookupA st.cache (filepath home user name) with
  | none => simp [hl, lookupA_insertA_self]
  | some h => simpa [hl] using hl

theorem FileCache.file_fs_of_exists (home user name : PyStr) (st : SState)
    (h : (lookupA st.fs (filepath home user name)).isSome = true) :
    (FileCache.file home user name st).2.fs = st.fs := by
  simp only [FileCache.file]
  cases hl : lookupA st.cache (filepath home user name) with
  | none => simp [hl, h]
  | some hd => simp [hl]

theorem FileCache.setPosition_zero (home user name : PyStr) (st : SState) :
    FileCache.setPosition home user name 0 0 st =
      .ok (updHandle (FileCache.file home user name st).2 (filepath home user name)
        { (FileCache.file home user name st).1 with pos := 0 }) := by
  simp only [FileCache.setPosition]
  cases hf : FileCache.file home user name st with
  | mk h st1 => simp [hf]

theorem FileCache.rename_ok (home user a b : PyStr) (st : SState) (ca : List Nat)
    (hne : filepath home user a ≠ filepath home user b)
    (hfa : lookupA st.fs (filepath home user a) = some ca) :
    ∃ st5 hdl,
      FileCache.rename home user a b st = .ok ((true, []), st5)
      ∧ st5.fs = insertA (removeA st.fs (filepath home user a)) (filepath home user b) ca
      ∧ lookupA st5.cache (filepath home user b) = some hdl ∧ hdl.pos = 0 := by
  have hfs2 : (FileCache.close home user b (FileCache.close home user a st)).fs = st.fs := by
    rw [FileCache.close_fs, FileCache.close_fs]
  simp only [FileCache.rename, hfs2, hfa, FileCache.setPosition_zero, Except.map]
  refine ⟨_, _, rfl, ?_, lookupA_updHandle_self _ _ _, rfl⟩
  rw [updHandle_fs, FileCache.file_fs_of_exists]
  simp [lookupA_insertA_self]

/-- C8 (amended): for an existing file a and a name b with a different resolved
path, after a successful rename(a, b) the command exists(a) returns "False",
exists(b) returns "True" and getposition(b) returns "0". -/
theorem rename_exists_false_true_position_zero (home user a b : PyStr) (st : SState) (ca : List Nat)
    (ha : a ≠ []) (hb : b ≠ [])
    (hne : filepath home user a ≠ filepath home user b)
    (hfa : lookupA st.fs (filepath home user a) = some ca) :
    renameThenQuery home user a b st
      = some (pstr "OK", pstr "False", pstr "True", pstr "0") := by
  obtain ⟨st5, hdl, hrw, hfs5, hcb5, hpos⟩ := FileCache.rename_ok home user a b st ca hne hfa
  simp only [renameThenQuery, Responder.rename, truthy_some ha, truthy_some hb, if_true,
    Option.getD_some, lookupA, if_pos rfl, hrw]
  simp only [Responder.existsCmd, Responder.position, truthy_some ha, truthy_some hb, if_true,
    Option.getD_some, FileCache.getPosition, FileCache.file_cached hcb5, hfs5,
    lookupA_insertA_self, lookupA_insertA_ne _ _ _ _ hne, lookupA_removeA_self,
    resBody, body, hpos]
  rfl

/-- Witness for C8 renaming a.txt to b.txt. -/
theorem rename_exists_false_true_position_zero_w :
    renameThenQuery homeX userX (pstr "a.txt") (pstr "b.txt")
        ⟨[(filepath homeX userX (pstr "a.txt"), [104, 105])], [], [], 0⟩
      = some (pstr "OK", pstr "False", pstr "True", pstr "0") :=
  rename_exists_false_true_position_zero homeX userX (pstr "a.txt") (pstr "b.txt")
    ⟨[(filepath homeX userX (pstr "a.txt"), [104, 105])], [], [], 0⟩ [104, 105]
    (by decide) (by decide) (by decide) rfl

theorem Responder.setPosition_zero_start (home user fn : PyStr) (st : SState) (hfn : fn ≠ []) :
    Responder.setPosition home user (some fn) (some (pstr "0"))
        [(pstr "relativeto", pstr "start")] st
      = .ok (Responder.OK,
          updHandle (FileCache.file home user fn st).2 (filepath home user fn)
            { (FileCache.file home user fn st).1 with pos := 0 }) := by
  have e0 : truthy (some (pstr "0")) = true := rfl
  have e1 : lookupA [(pstr "relativeto", pstr "start")] (pstr "relativeto")
      = some (pstr "start") := rfl
  have e2 : (pstr "start" = pstr "start") = True := eq_true rfl
  have e3 : (((0 : Int) ≠ -1)) = True := eq_true (by decide)
  have e4 : (pyIsdigit (pstr "0") = true) = True := eq_true rfl
  have e5 : parseIntPy (pstr "0") = 0 := rfl
  simp only [Responder.setPosition, truthy_some hfn, if_true, Option.getD_some,
    e0, e1, e2, e3, e4, e5, true_or, if_true, FileCache.setPosition_zero, Int.toNat_zero]

theorem Responder.read_characters_cached (home user fn cnt : PyStr) (st : SState)
    (h : Handle) (content : List Nat)
    (hfn : fn ≠ [])
    (hc : lookupA st.cache (filepath home user fn) = some h)
    (hf : lookupA st.fs (filepath home user fn) = some content)
    (hcnt : pyIsdigit cnt = true) :
    Responder.read home user (some fn) (some (pstr "characters")) [(pstr "count", cnt)] st
      = match utf8Decode ((content.drop h.pos).take (parseNat cnt)) with
        | none => .error .unicodeDecodeError
        | some res => .ok (.str res, updHandle st (filepath home user fn)
            { h with pos := h.pos + ((content.drop h.pos).take (parseNat cnt)).length }) := by
  have e1 : (pstr "characters" = pstr "nextline") = False := eq_false (by decide)
  have e2 : (pstr "characters" = pstr "characters") = True := eq_true rfl
  simp only [Responder.read, truthy_some hfn, if_true, Option.getD_some,
    show truthy (some (pstr "characters")) = true from rfl, e1, e2, if_false, if_true,
    lookupA, if_pos rfl, hcnt]
  simp only [handleRead, FileCache.file_cached hc, fsRead, hf, Option.getD_some]

/-- C6 (amended): for data whose characters are all single-byte in UTF-8, write
then setposition(0, start) then read(characters, count) with count denoting
len(d) returns exactly d, starting from a fresh server state. -/
theorem write_seek_read_roundtrip_ascii (home user fn d cnt : PyStr)
    (hfn : fn ≠ [])
    (hd : ∀ c ∈ d, c < 128)
    (hcnt : pyIsdigit cnt = true)
    (hlen : parseNat cnt = d.length) :
    resBody (writeSeekReadChain home user fn d cnt emptyState) = some d := by
  by_cases hde : d = []
  · subst hde
    have hfile : FileCache.file home user fn emptyState
        = (⟨0, 0⟩, ⟨[(filepath home user fn, [])], [(filepath home user fn, ⟨0, 0⟩)], [0], 1⟩) := by
      simp [FileCache.file, emptyState, lookupA, insertA]
    have hsp := Responder.setPosition_zero_start home user fn emptyState hfn
    rw [hfile] at hsp
    simp only [updHandle, insertA, eq_self_iff_true, if_true] at hsp
    have hrd := Responder.read_characters_cached home user fn cnt
      ⟨[(filepath home user fn, [])], [(filepath home user fn, ⟨0, 0⟩)], [0], 1⟩
      ⟨0, 0⟩ [] hfn (by simp [lookupA]) (by simp [lookupA]) hcnt
    simp only [List.drop_nil, List.take_nil] at hrd
    simp only [writeSeekReadChain, Responder.write, truthy_some hfn,
      show truthy (some ([] : PyStr)) = false from rfl, Bool.false_eq_true, if_false,
      if_true, hsp, hrd]
    rfl
  · have hfile : FileCache.file home user fn emptyState
        = (⟨0, 0⟩, ⟨[(filepath home user fn, [])], [(filepath home user fn, ⟨0, 0⟩)], [0], 1⟩) := by
      simp [FileCache.file, emptyState, lookupA, insertA]
    have hw : handleWrite home user fn (utf8Encode d) emptyState
        = ⟨[(filepath home user fn, d)], [(filepath home user fn, ⟨0, d.length⟩)], [0], 1⟩ := by
      simp only [handleWrite, hfile, fsRead, updHandle, insertA, lookupA,
        utf8Encode_ascii hd]
      simp
    have hfile2 : FileCache.file home user fn
        ⟨[(filepath home user fn, d)], [(filepath home user fn, ⟨0, d.length⟩)], [0], 1⟩
        = (⟨0, d.length⟩, ⟨[(filepath home user fn, d)], [(filepath home user fn, ⟨0, d.length⟩)], [0], 1⟩) := by
      simp [FileCache.file, lookupA]
    have hsp := Responder.setPosition_zero_start home user fn
      ⟨[(filepath home user fn, d)], [(filepath home user fn, ⟨0, d.length⟩)], [0], 1⟩ hfn
    rw [hfile2] at hsp
    simp only [updHandle, insertA, eq_self_iff_true, if_true] at hsp
    have hrd := Responder.read_characters_cached home user fn cnt
      ⟨[(filepath home user fn, d)], [(filepath home user fn, ⟨0, 0⟩)], [0], 1⟩
      ⟨0, 0⟩ d hfn (by simp [lookupA]) (by simp [lookupA]) hcnt
    simp only [List.drop_zero, hlen, List.take_length, utf8Decode_ascii hd] at hrd
    simp only [writeSeekReadChain, Responder.write, truthy_some hfn, truthy_some hde,
      if_true, Option.getD_some, hw, hsp, hrd]
    rfl

/-- Witness for C6 with d = "hello" and count "5". -/
theorem write_seek_read_roundtrip_ascii_w :
    resBody (writeSeekReadChain homeX userX fnX (pstr "hello") (pstr "5") emptyState)
      = some (pstr "hello") :=
  write_seek_read_roundtrip_ascii homeX userX fnX (pstr "hello") (pstr "5") (by decide) (by decide) rfl rfl

theorem splitAux_append (sep : Nat) (xs : List Nat) :
    ∀ (cur : PyStr) (ys : List Nat),
      splitAux sep cur (xs ++ sep :: ys) = splitAux sep cur xs ++ splitAux sep [] ys := by
  induction xs with
  | nil => intro cur ys; simp [splitAux]
  | cons c rest ih =>
    intro cur ys
    by_cases h : c = sep
    · simp [splitAux, h, ih]
    · simp [splitAux, h, ih]

theorem splitAux_no_sep (sep : Nat) :
    ∀ (l : List Nat) (cur : PyStr), sep ∉ l → splitAux sep cur l = [cur.reverse ++ l] := by
  intro l
  induction l with
  | nil => intro cur h; simp [splitAux]
  | cons c rest ih =>
    intro cur h
    have hc : c ≠ sep := by
      intro he
      exact h (by simp [he])
    have hrest : sep ∉ rest := fun hm => h (List.mem_cons_of_mem c hm)
    simp [splitAux, hc, ih rest.reverse.reverse hrest]
    simp [ih _ hrest]

theorem FileCache.file_emptyState (home user fn : PyStr) :
    FileCache.file home user fn emptyState
      = (⟨0, 0⟩, ⟨[(filepath home user fn, [])], [(filepath home user fn, ⟨0, 0⟩)], [0], 1⟩) := by
  simp [FileCache.file, emptyState, lookupA, insertA]

/-- C7 (amended): on an initially absent file, append(d1) then append(d2) then
readall yields exactly the two lines d1 + separator and d2 (the final line
loses its terminator), for non-empty separator-free data strings d1, d2
(sequences of Unicode scalar values, multibyte characters included). -/
theorem append_append_readall_two_lines (home user fn d1 d2 : PyStr)
    (hfn : fn ≠ []) (h1 : d1 ≠ []) (h2 : d2 ≠ [])
    (hv1 : ∀ c ∈ d1, validScalar c) (hv2 : ∀ c ∈ d2, validScalar c)
    (hn1 : 10 ∉ d1) (hn2 : 10 ∉ d2) :
    resLines (appendAppendReadallChain home user fn d1 d2 emptyState)
      = some [d1 ++ [10], d2] := by
  have hv1a : ∀ c ∈ d1 ++ [10], validScalar c := by
    intro c hc
    rcases List.mem_append.mp hc with hm | hm
    · exact hv1 c hm
    · simp at hm
      subst hm
      exact Or.inl (by omega)
  have hv2a : ∀ c ∈ d2 ++ [10], validScalar c := by
    intro c hc
    rcases List.mem_append.mp hc with hm | hm
    · exact hv2 c hm
    · simp at hm
      subst hm
      exact Or.inl (by omega)
  have happ1 : Responder.append home user (some fn) (some d1) [] emptyState
      = .ok (Responder.OK,
          ⟨[(filepath home user fn, utf8Encode (d1 ++ [10]))],
            [(filepath home user fn, ⟨0, (utf8Encode (d1 ++ [10])).length⟩)], [0], 1⟩) := by
    simp only [Responder.append, truthy_some hfn, truthy_some h1, if_true, Option.getD_some]
    simp only [handleSeekEnd, handleWrite, FileCache.file, emptyState, fsRead, updHandle,
      insertA, lookupA]
    simp
  have happ2 : Responder.append home user (some fn) (some d2) []
        ⟨[(filepath home user fn, utf8Encode (d1 ++ [10]))],
          [(filepath home user fn, ⟨0, (utf8Encode (d1 ++ [10])).length⟩)], [0], 1⟩
      = .ok (Responder.OK,
          ⟨[(filepath home user fn, utf8Encode (d1 ++ [10]) ++ utf8Encode (d2 ++ [10]))],
            [(filepath home user fn,
              ⟨0, (utf8Encode (d1 ++ [10])).length + (utf8Encode (d2 ++ [10])).length⟩)],
            [0], 1⟩) := by
    simp only [Responder.append, truthy_some hfn, truthy_some h2, if_true, Option.getD_some]
    simp only [handleSeekEnd, handleWrite, FileCache.file, fsRead, updHandle, insertA, lookupA]
    simp [List.take_length, List.drop_eq_nil_of_le]
  have hdec : utf8Decode (utf8Encode (d1 ++ [10]) ++ utf8Encode (d2 ++ [10]))
      = some (d1 ++ 10 :: (d2 ++ [10])) := by
    rw [utf8Decode_encode_append (d1 ++ [10]) _ hv1a, utf8Decode_encode (d2 ++ [10]) hv2a]
    simp
  have hsplit2 : splitOn 10 (d1 ++ 10 :: (d2 ++ [10])) = [d1, d2, []] := by
    rw [splitOn, splitAux_append]
    rw [show d2 ++ [10] = d2 ++ 10 :: [] from rfl, splitAux_append]
    rw [splitAux_no_sep 10 d1 [] hn1, splitAux_no_sep 10 d2 [] hn2]
    rfl
  simp only [appendAppendReadallChain, happ1, happ2]
  simp only [Responder.readall, truthy_some hfn, if_true, Option.getD_some,
    FileCache.file, fsRead, lookupA, eq_self_iff_true, Option.getD_some, hdec, hsplit2]
  simp only [List.dropLast, List.map]
  rw [show ([d1 ++ [10], d2 ++ [10]] : List PyStr) = [d1 ++ [10]] ++ [d2 ++ [10]] from rfl]
  simp only [List.getLast?_concat, List.dropLast_concat]
  simp [resLines]

/-- Witness for C7 with the multibyte d1 = "é" and d2 = "b". -/
theorem append_append_readall_two_lines_w :
    resLines (appendAppendReadallChain homeX userX fnX (pstr "é") (pstr "b") emptyState)
      = some [pstr "é" ++ [10], pstr "b"] :=
  append_append_readall_two_lines homeX userX fnX (pstr "é") (pstr "b") (by decide)
    (by decide) (by decide) (by decide) (by decide) (by decide) (by decide)

theorem basename_foldl_no_sep : ∀ (l : List Nat) (acc : PyStr), SEP ∉ acc →
    SEP ∉ l.foldl (fun acc c => if c = SEP then [] else acc ++ [c]) acc := by
  intro l
  induction l with
  | nil => intro acc h; simpa using h
  | cons c rest ih =>
    intro acc h
    by_cases hc : c = SEP
    · simp only [List.foldl_cons, if_pos hc]
      exact ih [] (by simp)
    · simp only [List.foldl_cons, if_neg hc]
      refine ih (acc ++ [c]) ?_
      intro hm
      rcases List.mem_append.mp hm with hm | hm
      · exact h hm
      · simp at hm
        exact hc hm.symm

theorem basename_no_sep (f : PyStr) : SEP ∉ basename f :=
  basename_foldl_no_sep f [] (by simp)

theorem normStep_nil (acc : List PyStr) : normStep acc [] = acc := by
  simp [normStep]

theorem normStep_push (acc : List PyStr) (b : PyStr)
    (hb0 : b ≠ []) (hbd : b ≠ pstr ".") (hbdd : b ≠ pstr "..") :
    normStep acc b = b :: acc := by
  simp [normStep, hb0, hbd, hbdd]

theorem normSegs_append_basename (r b : PyStr) (hsep : SEP ∉ b)
    (hb0 : b ≠ []) (hbd : b ≠ pstr ".") (hbdd : b ≠ pstr "..") :
    normSegs (r ++ SEP :: b) = normSegs r ++ [b] := by
  rw [normSegs, normSegs, splitOn, splitOn, splitAux_append, splitAux_no_sep SEP b [] hsep]
  simp only [List.reverse_nil, List.nil_append, List.foldl_append, List.foldl_cons,
    List.foldl_nil]
  rw [normStep_push _ b hb0 hbd hbdd]
  simp

theorem normSegs_concat_sep (r2 : PyStr) : normSegs (r2 ++ [SEP]) = normSegs r2 := by
  rw [normSegs, normSegs, splitOn, splitOn,
    show r2 ++ [SEP] = r2 ++ SEP :: [] from rfl, splitAux_append]
  simp only [List.foldl_append, List.foldl_cons, List.foldl_nil, splitAux,
    List.reverse_nil, normStep_nil]

/-- C3 (amended): directory components of the filename are discarded, and whenever
the remaining base name is not empty, "." or "..", the resolved path stays
under the per-user root. -/
theorem filepath_ordinary_basename_under_user_root (home username filename : PyStr)
    (hb0 : basename filename ≠ [])
    (hbd : basename filename ≠ pstr ".")
    (hbdd : basename filename ≠ pstr "..") :
    underRoot (snapFilesPath home username) (filepath home username filename) := by
  have hsep : SEP ∉ basename filename := basename_no_sep filename
  show normSegs (snapFilesPath home username)
    <+: normSegs (ospJoin (snapFilesPath home username) (basename filename))
  generalize (snapFilesPath home username) = r
  generalize hgb : basename filename = b at hsep hb0 hbd hbdd
  have hb1 : b.head? ≠ some SEP := by
    cases b with
    | nil => exact absurd rfl hb0
    | cons c t =>
      simp only [List.head?, ne_eq, Option.some.injEq]
      intro he
      exact hsep (by simp [he])
  rw [ospJoin, if_neg hb1]
  by_cases hr0 : r = []
  · rw [if_pos hr0, hr0]
    exact List.nil_prefix
  · rw [if_neg hr0]
    rcases List.eq_nil_or_concat r with hnil | ⟨r2, a, hconcat⟩
    · exact absurd hnil hr0
    · rw [List.concat_eq_append] at hconcat
      by_cases ha : a = SEP
      · have hlast : r.getLast? = some SEP := by rw [hconcat, List.getLast?_concat, ha]
        rw [if_pos hlast, hconcat, ha]
        rw [show (r2 ++ [SEP]) ++ b = r2 ++ SEP :: b by simp]
        rw [normSegs_concat_sep, normSegs_append_basename r2 b hsep hb0 hbd hbdd]
        exact List.prefix_append _ _
      · have hlast : r.getLast? ≠ some SEP := by
          rw [hconcat, List.getLast?_concat]
          simp [ha]
        rw [if_neg hlast, normSegs_append_basename r b hsep hb0 hbd hbdd]
        exact List.prefix_append _ _

/-- Witness for C3: a filename with a directory component resolves under the root. -/
theorem filepath_ordinary_basename_under_user_root_w :
    underRoot (snapFilesPath homeX userX) (filepath homeX userX (pstr "notes/todo.txt")) :=
  filepath_ordinary_basename_under_user_root homeX userX (pstr "notes/todo.txt") (by decide) (by decide) (by decide)

/-- Witness for C9 at a concrete two-byte file. -/
theorem truncate_uncached_opens_and_empties_w :
    Responder.truncate homeX userX (some fnX) none [] stHI
      = .ok (Responder.OK, ⟨[(pX, [])], [(pX, ⟨0, 0⟩)], [0], 1⟩) :=
  truncate_uncached_opens_and_empties homeX userX fnX stHI [104, 105] (by decide) rfl rfl

/-- Witness for C10 from the empty server state. -/
theorem getposition_missing_file_creates_and_returns_zero_w :
    Responder.position homeX userX (some fnX) none [] emptyState
      = .ok (.str (pstr "0"), ⟨[(pX, [])], [(pX, ⟨0, 0⟩)], [0], 1⟩) :=
  getposition_missing_file_creates_and_returns_zero homeX userX fnX emptyState (by decide) rfl rfl

end SnapFiles
